import Mathlib

/-
Verification of the history tracker in
packages/outline-react/src/shared/useOutlineHistory.js:
the merge-decision function getMergeAction and the stack-management
operations applyChange, undo, redo, setHistoryState.

Modelling conventions:
- JS objects are values; object identity (the === comparisons in the
  source) is modelled by a numeric id field on each view model.
- The module-scoped mutable set viewModelsWithoutHistory is threaded
  explicitly as a list of view-model ids (withoutHistory); getMergeAction
  and applyChange return the updated list alongside their result.
- JS arrays used as stacks (push/pop at the end) are modelled as Lean
  lists with the stack top at the HEAD: push is cons, pop takes the head.
- markDirty mutates the view-model object in place in JS; here it
  produces a value with the same id and the dirty flag set, so the JS
  object after mutation is denoted by markDirty of the original value.
-/

namespace OutlineHistory

/-- Modelled from the spec: a selection descriptor — anchor node
identifier plus anchor offset (ViewModel._selection in the source;
the outline core that defines it is not part of the reviewed sources). -/
structure Selection where
  anchorKey : Nat
  anchorOffset : Int
deriving DecidableEq, Repr

/-- Modelled from the spec: node data in the content-node map of a snapshot —
an identifier (__key), whether the node is text-bearing (isTextNode),
a set of formatting flags (__flags) and a text payload (__text).
The outline core that defines nodes is not part of the reviewed sources. -/
structure Node where
  key : Nat
  isText : Bool
  flags : Int
  text : String
deriving DecidableEq, Repr

/-- Modelled from the spec: a snapshot (ViewModel). Exposes a dirty flag
(isDirty), the list of dirty content nodes (getDirtyNodes, with
hasDirtyNodes true exactly when that list is non-empty), a content-node
map (_nodeMap, identifier to node) and an optional selection descriptor
(_selection). The id field stands for JS object identity. The outline
core that defines ViewModel is not part of the reviewed sources. -/
structure ViewModel where
  id : Nat
  dirty : Bool
  dirtyNodes : List Node
  nodeMap : List (Nat × Node)
  selection : Option Selection
deriving DecidableEq, Repr

def ViewModel.isDirty (v : ViewModel) : Bool := v.dirty

def ViewModel.hasDirtyNodes (v : ViewModel) : Bool := !v.dirtyNodes.isEmpty

def ViewModel.getDirtyNodes (v : ViewModel) : List Node := v.dirtyNodes

/-- markDirty sets the dirty flag in place; the object (id) is unchanged. -/
def ViewModel.markDirty (v : ViewModel) : ViewModel := { v with dirty := true }

/-- The three outcomes MERGE = 0, NO_MERGE = 1, DISCARD = 2 of the source. -/
inductive MergeAction where
  | MERGE
  | NO_MERGE
  | DISCARD
deriving DecidableEq, Repr

/-- The body of getMergeAction after the viewModelsWithoutHistory check:
the prev-null test, the dirty-node inspection and the text-diff
heuristic, ported branch for branch from the source (lines 31-82). -/
def mergeDecision (prevViewModel : Option ViewModel)
    (nextViewModel : ViewModel) : MergeAction :=
  match prevViewModel with
  | none => .NO_MERGE
  | some prev =>
    if !nextViewModel.hasDirtyNodes then
      .DISCARD
    else
      match nextViewModel.getDirtyNodes with
      | [nextDirtyNode] =>
        match prev.nodeMap.lookup nextDirtyNode.key with
        | some prevDirtyNode =>
          if prevDirtyNode.isText && nextDirtyNode.isText &&
              prevDirtyNode.flags == nextDirtyNode.flags then
            let prevText := prevDirtyNode.text
            let nextText := nextDirtyNode.text
            if prevText = "" then
              .NO_MERGE
            else
              let textDiff : Int := (nextText.length : Int) - (prevText.length : Int)
              if textDiff = 0 then
                .MERGE
              else if textDiff = -1 ∨ textDiff = 1 then
                match nextViewModel.selection, prev.selection with
                | none, _ => .MERGE
                | some _, none => .MERGE
                | some selection, some prevSelection =>
                  if selection.anchorKey ≠ prevSelection.anchorKey then
                    .NO_MERGE
                  else if prevSelection.anchorOffset = selection.anchorOffset - 1 then
                    .MERGE
                  else
                    .NO_MERGE
              else
                .NO_MERGE
          else
            .NO_MERGE
        | none => .NO_MERGE
      | _ => .NO_MERGE

/-- getMergeAction (source lines 21-83): a view model tagged in
viewModelsWithoutHistory is always merged and its tag consumed
(one-shot); otherwise the decision falls to mergeDecision. -/
def getMergeAction (withoutHistory : List Nat) (prevViewModel : Option ViewModel)
    (nextViewModel : ViewModel) : MergeAction × List Nat :=
  if withoutHistory.contains nextViewModel.id then
    (.MERGE, withoutHistory.erase nextViewModel.id)
  else
    (mergeDecision prevViewModel nextViewModel, withoutHistory)

/-- The history state of useOutlineHistory: the in-progress snapshot and
the two stacks (stack top at the head of each list). -/
structure HistoryState where
  current : Option ViewModel
  undoStack : List ViewModel
  redoStack : List ViewModel
deriving DecidableEq, Repr

/-- The state created on attachment: no current snapshot, empty stacks. -/
def initialHistoryState : HistoryState :=
  { current := none, undoStack := [], redoStack := [] }

/-- applyChange (source lines 115-136): the update listener. Identity
with current is an early no-op; a dirty view model bypasses the merge
decision; NO_MERGE clears the redo stack and pushes current (when
present) onto the undo stack; DISCARD returns before current is
reassigned; every other path sets current to the new view model. -/
def applyChange (withoutHistory : List Nat) (s : HistoryState)
    (viewModel : ViewModel) : HistoryState × List Nat :=
  if s.current.map ViewModel.id = some viewModel.id then
    (s, withoutHistory)
  else if !viewModel.isDirty then
    let result := getMergeAction withoutHistory s.current viewModel
    match result.1 with
    | .NO_MERGE =>
      let pushed := match s.current with
        | some c => c :: s.undoStack
        | none => s.undoStack
      ({ current := some viewModel, undoStack := pushed, redoStack := [] },
        result.2)
    | .DISCARD => (s, result.2)
    | .MERGE => ({ s with current := some viewModel }, result.2)
  else
    ({ s with current := some viewModel }, withoutHistory)

/-- undo (source lines 138-154). Returns the new state together with the
snapshot handed to editor.setViewModel (none when nothing happened).
When current is present, the undo stack holds more than one entry and
current has no dirty nodes, the top undo entry is popped and pushed to
redo in place of current; otherwise current itself is pushed. The (new)
top of the undo stack is then popped, marked dirty and becomes current.
The branch pairing a single-entry pop with the more-than-one-entry guard
cannot occur; it returns the state unchanged. -/
def undo (s : HistoryState) : HistoryState × Option ViewModel :=
  match s.undoStack with
  | [] => (s, none)
  | u :: rest =>
    match s.current with
    | some c =>
      if s.undoStack.length ≠ 1 ∧ !c.hasDirtyNodes then
        match rest with
        | v :: rest2 =>
          let vm := v.markDirty
          ({ current := some vm, undoStack := rest2,
             redoStack := u :: s.redoStack }, some vm)
        | [] => (s, none)
      else
        let vm := u.markDirty
        ({ current := some vm, undoStack := rest,
           redoStack := c :: s.redoStack }, some vm)
    | none =>
      let vm := u.markDirty
      ({ current := some vm, undoStack := rest,
         redoStack := s.redoStack }, some vm)

/-- redo (source lines 156-168). Returns the new state together with the
snapshot handed to editor.setViewModel (none when nothing happened). -/
def redo (s : HistoryState) : HistoryState × Option ViewModel :=
  match s.redoStack with
  | [] => (s, none)
  | r :: rest =>
    let pushed := match s.current with
      | some c => c :: s.undoStack
      | none => s.undoStack
    let vm := r.markDirty
    ({ current := some vm, undoStack := pushed, redoStack := rest }, some vm)

/-- setHistoryState (source lines 202-213): bulk replacement of both
stacks; current is untouched. -/
def setHistoryState (s : HistoryState) (undoStack redoStack : List ViewModel) :
    HistoryState :=
  { s with undoStack := undoStack, redoStack := redoStack }

/-- All snapshot ids held in a history state: current first, then the
undo stack, then the redo stack. -/
def stateIds (s : HistoryState) : List Nat :=
  (s.current.map ViewModel.id).toList ++ s.undoStack.map ViewModel.id ++
    s.redoStack.map ViewModel.id

/-- States reachable from the initial state through the exposed
operations: recordUpdate (applyChange, under an arbitrary pending
exemption set), undo, redo and setStacks (setHistoryState with arbitrary
stack contents). -/
inductive Reachable : HistoryState → Prop where
  | init : Reachable initialHistoryState
  | record (withoutHistory : List Nat) (v : ViewModel) {s : HistoryState} :
      Reachable s → Reachable (applyChange withoutHistory s v).1
  | undoStep {s : HistoryState} : Reachable s → Reachable (undo s).1
  | redoStep {s : HistoryState} : Reachable s → Reachable (redo s).1
  | setStacks (u r : List ViewModel) {s : HistoryState} :
      Reachable s → Reachable (setHistoryState s u r)

/-- States reachable through recordUpdate, undo and redo alone, where
every recorded snapshot is fresh: its id does not occur anywhere in the
state it is recorded into. -/
inductive ReachableFresh : HistoryState → Prop where
  | init : ReachableFresh initialHistoryState
  | record (withoutHistory : List Nat) (v : ViewModel) {s : HistoryState} :
      ReachableFresh s → v.id ∉ stateIds s →
      ReachableFresh (applyChange withoutHistory s v).1

  | undoStep {s : HistoryState} : ReachableFresh s → ReachableFresh (undo s).1
  | redoStep {s : HistoryState} : ReachableFresh s → ReachableFresh (redo s).1

def vmOne : ViewModel :=
  { id := 1, dirty := false, dirtyNodes := [], nodeMap := [], selection := none }

def vmTwo : ViewModel :=
  { id := 2, dirty := false,
    dirtyNodes := [{ key := 0, isText := false, flags := 0, text := "x" }],
    nodeMap := [], selection := none }

/-- C3 counterexample: a next snapshot that is not dirty and has no dirty
nodes, paired with an absent prev, is classified NO_MERGE rather than
DISCARD, and applyChange does change the state (it installs the snapshot
as current). -/
def vmEmpty : ViewModel :=
  { id := 7, dirty := false, dirtyNodes := [], nodeMap := [], selection := none }

/-- C5 counterexample: a snapshot tagged history-exempt with prev absent
is classified MERGE, not NO_MERGE, even though it is not marked dirty. -/
def vmExempt : ViewModel :=
  { id := 5, dirty := false, dirtyNodes := [], nodeMap := [], selection := none }

/-- Concrete snapshots and states used by the witness theorems. -/
def nodePrevC1 : Node := { key := 10, isText := true, flags := 0, text := "ab" }

def nodeNextC1 : Node := { key := 10, isText := true, flags := 0, text := "abc" }

def prevC1 : ViewModel :=
  { id := 1, dirty := false, dirtyNodes := [],
    nodeMap := [(10, nodePrevC1)],
    selection := some { anchorKey := 10, anchorOffset := 2 } }

def nextC1 : ViewModel :=
  { id := 2, dirty := false, dirtyNodes := [nodeNextC1], nodeMap := [],
    selection := some { anchorKey := 10, anchorOffset := 3 } }

def nodePrevC6 : Node := { key := 11, isText := true, flags := 0, text := "" }

def nodeNextC6 : Node := { key := 11, isText := true, flags := 0, text := "a" }

def prevC6 : ViewModel :=
  { id := 3, dirty := false, dirtyNodes := [],
    nodeMap := [(11, nodePrevC6)], selection := none }

def nextC6 : ViewModel :=
  { id := 4, dirty := false, dirtyNodes := [nodeNextC6], nodeMap := [],
    selection := none }

def stateC3 : HistoryState :=
  { current := some vmOne, undoStack := [], redoStack := [] }

def stateC4 : HistoryState :=
  { current := some vmOne, undoStack := [], redoStack := [vmExempt] }

def stateC8 : HistoryState :=
  { current := some vmOne, undoStack := [vmTwo], redoStack := [] }

def stateC8b : HistoryState :=
  { current := some vmOne, undoStack := [vmTwo, vmEmpty], redoStack := [] }

def stateC10 : HistoryState :=
  { current := none, undoStack := [vmOne], redoStack := [vmTwo] }

theorem stateIds_some {s : HistoryState} {c : ViewModel} (h : s.current = some c) :
    stateIds s = c.id :: (s.undoStack.map ViewModel.id ++
      s.redoStack.map ViewModel.id) := by
  simp [stateIds, h]

theorem stateIds_none {s : HistoryState} (h : s.current = none) :
    stateIds s = s.undoStack.map ViewModel.id ++
      s.redoStack.map ViewModel.id := by
  simp [stateIds, h]

theorem applyChange_shape (withoutHistory : List Nat) (s : HistoryState)
    (v : ViewModel) :
    (applyChange withoutHistory s v).1 = s ∨
    (applyChange withoutHistory s v).1 = { s with current := some v } ∨
    (applyChange withoutHistory s v).1 =
      { current := some v,
        undoStack := (match s.current with
          | some c => c :: s.undoStack
          | none => s.undoStack),
        redoStack := [] } := by
  unfold applyChange
  by_cases hid : s.current.map ViewModel.id = some v.id
  · simp [hid]
  · simp only [hid, if_false]
    by_cases hd : !v.isDirty
    · simp only [hd, if_true]
      rcases (getMergeAction withoutHistory s.current v).1 with _ | _ | _ <;> simp
    · simp [hd]

theorem stateIds_applyChange (withoutHistory : List Nat) (s : HistoryState)
    (v : ViewModel) (hs : (stateIds s).Nodup) (hv : v.id ∉ stateIds s) :
    (stateIds (applyChange withoutHistory s v).1).Nodup := by
  rcases applyChange_shape withoutHistory s v with h | h | h
  · rw [h]
    exact hs
  · have hn : stateIds (applyChange withoutHistory s v).1 =
        v.id :: (s.undoStack.map ViewModel.id ++
          s.redoStack.map ViewModel.id) := by
      rw [h]
      simp [stateIds]
    rw [hn]
    rcases hc : s.current with _ | c
    · rw [stateIds_none hc] at hs hv
      exact List.nodup_cons.mpr ⟨hv, hs⟩
    · rw [stateIds_some hc] at hs hv
      exact List.nodup_cons.mpr ⟨List.not_mem_of_not_mem_cons hv, hs.of_cons⟩
  · rcases hc : s.current with _ | c
    · have hn : stateIds (applyChange withoutHistory s v).1 =
          v.id :: s.undoStack.map ViewModel.id := by
        rw [h, hc]
        simp [stateIds]
      rw [hn]
      rw [stateIds_none hc] at hs hv
      refine List.nodup_cons.mpr ⟨?_, hs.of_append_left⟩
      intro hm
      exact hv (List.mem_append.mpr (Or.inl hm))
    · have hn : stateIds (applyChange withoutHistory s v).1 =
          v.id :: c.id :: s.undoStack.map ViewModel.id := by
        rw [h, hc]
        simp [stateIds]
      rw [hn]
      rw [stateIds_some hc] at hs hv
      simp only [List.mem_cons, List.mem_append] at hv
      push_neg at hv
      have hs2 := List.nodup_cons.mp hs
      refine List.nodup_cons.mpr ⟨?_, List.nodup_cons.mpr ⟨?_, hs2.2.of_append_left⟩⟩
      · simp only [List.mem_cons]
        rintro (h1 | h2)
        · exact hv.1 h1
        · exact hv.2.1 h2
      · intro hm
        exact hs2.1 (List.mem_append.mpr (Or.inl hm))

theorem undo_shape (s : HistoryState) :
    (undo s).1 = s ∨
    (∃ u rest, s.undoStack = u :: rest ∧ s.current = none ∧
      (undo s).1 = { current := some u.markDirty, undoStack := rest,
                     redoStack := s.redoStack }) ∨
    (∃ c u rest, s.undoStack = u :: rest ∧ s.current = some c ∧
      (undo s).1 = { current := some u.markDirty, undoStack := rest,
                     redoStack := c :: s.redoStack }) ∨
    (∃ c u u2 rest2, s.undoStack = u :: u2 :: rest2 ∧ s.current = some c ∧
      (undo s).1 = { current := some u2.markDirty, undoStack := rest2,
                     redoStack := u :: s.redoStack }) := by
  rcases hst : s.undoStack with _ | ⟨u, rest⟩
  · left
    simp [undo, hst]
  · rcases hc : s.current with _ | c
    · right; left
      exact ⟨u, rest, rfl, rfl, by simp [undo, hst, hc]⟩
    · by_cases hnd : c.hasDirtyNodes
      · right; right; left
        refine ⟨c, u, rest, rfl, rfl, ?_⟩
        simp [undo, hst, hc, hnd]
      · cases rest with
        | nil =>
          right; right; left
          refine ⟨c, u, [], rfl, rfl, ?_⟩
          simp [undo, hst, hc]
        | cons u2 rest2 =>
          right; right; right
          refine ⟨c, u, u2, rest2, rfl, rfl, ?_⟩
          simp [undo, hst, hc, Bool.not_eq_true] at hnd ⊢
          simp [hnd]

theorem stateIds_undo (s : HistoryState) (hs : (stateIds s).Nodup) :
    (stateIds (undo s).1).Nodup := by
  rcases undo_shape s with h | ⟨u, rest, hst, hc, h⟩ |
      ⟨c, u, rest, hst, hc, h⟩ | ⟨c, u, u2, rest2, hst, hc, h⟩
  · rw [h]
    exact hs
  · have hn : stateIds (undo s).1 =
        u.id :: (rest.map ViewModel.id ++ s.redoStack.map ViewModel.id) := by
      rw [h]
      simp [stateIds, ViewModel.markDirty]
    rw [hn]
    rw [stateIds_none hc, hst] at hs
    simpa using hs
  · have hn : stateIds (undo s).1 =
        u.id :: (rest.map ViewModel.id ++
          (c.id :: s.redoStack.map ViewModel.id)) := by
      rw [h]
      simp [stateIds, ViewModel.markDirty]
    rw [hn]
    rw [stateIds_some hc, hst] at hs
    simp only [List.map_cons, List.cons_append] at hs
    have hperm : (u.id :: (rest.map ViewModel.id ++
        (c.id :: s.redoStack.map ViewModel.id))).Perm
        (c.id :: u.id :: (rest.map ViewModel.id ++
          s.redoStack.map ViewModel.id)) :=
      (List.perm_middle.cons u.id).trans (List.Perm.swap c.id u.id _)
    exact hperm.symm.nodup hs
  · have hn : stateIds (undo s).1 =
        u2.id :: (rest2.map ViewModel.id ++
          (u.id :: s.redoStack.map ViewModel.id)) := by
      rw [h]
      simp [stateIds, ViewModel.markDirty]
    rw [hn]
    rw [stateIds_some hc, hst] at hs
    simp only [List.map_cons, List.cons_append] at hs
    have hperm : (u2.id :: (rest2.map ViewModel.id ++
        (u.id :: s.redoStack.map ViewModel.id))).Perm
        (u.id :: u2.id :: (rest2.map ViewModel.id ++
          s.redoStack.map ViewModel.id)) :=
      (List.perm_middle.cons u2.id).trans (List.Perm.swap u.id u2.id _)
    exact hperm.symm.nodup hs.of_cons

theorem redo_shape (s : HistoryState) :
    (redo s).1 = s ∨
    (∃ r rest, s.redoStack = r :: rest ∧ s.current = none ∧
      (redo s).1 = { current := some r.markDirty, undoStack := s.undoStack,
                     redoStack := rest }) ∨
    (∃ c r rest, s.redoStack = r :: rest ∧ s.current = some c ∧
      (redo s).1 = { current := some r.markDirty,
                     undoStack := c :: s.undoStack,
                     redoStack := rest }) := by
  rcases hst : s.redoStack with _ | ⟨r, rest⟩
  · left
    simp [redo, hst]
  · rcases hc : s.current with _ | c
    · right; left
      exact ⟨r, rest, rfl, rfl, by simp [redo, hst, hc]⟩
    · right; right
      exact ⟨c, r, rest, rfl, rfl, by simp [redo, hst, hc]⟩

theorem stateIds_redo (s : HistoryState) (hs : (stateIds s).Nodup) :
    (stateIds (redo s).1).Nodup := by
  rcases redo_shape s with h | ⟨r, rest, hst, hc, h⟩ | ⟨c, r, rest, hst, hc, h⟩
  · rw [h]
    exact hs
  · have hn : stateIds (redo s).1 =
        r.id :: (s.undoStack.map ViewModel.id ++ rest.map ViewModel.id) := by
      rw [h]
      simp [stateIds, ViewModel.markDirty]
    rw [hn]
    rw [stateIds_none hc, hst] at hs
    simp only [List.map_cons] at hs
    exact List.perm_middle.nodup hs
  · have hn : stateIds (redo s).1 =
        r.id :: (c.id :: (s.undoStack.map ViewModel.id ++
          rest.map ViewModel.id)) := by
      rw [h]
      simp [stateIds, ViewModel.markDirty]
    rw [hn]
    rw [stateIds_some hc, hst] at hs
    simp only [List.map_cons] at hs
    have hperm : (c.id :: (s.undoStack.map ViewModel.id ++
        (r.id :: rest.map ViewModel.id))).Perm
        (r.id :: (c.id :: (s.undoStack.map ViewModel.id ++
          rest.map ViewModel.id))) :=
      (List.perm_middle.cons c.id).trans (List.Perm.swap r.id c.id _)
    exact hperm.nodup hs

theorem reachableFresh_nodup {s : HistoryState} (h : ReachableFresh s) :
    (stateIds s).Nodup := by
  induction h with
  | init => simp [initialHistoryState, stateIds]
  | record withoutHistory v hr hv ih => exact stateIds_applyChange _ _ _ ih hv
  | undoStep hr ih => exact stateIds_undo _ ih
  | redoStep hr ih => exact stateIds_redo _ ih

/-- C1: when prev is present, next is not tagged history-exempt, next has
exactly one dirty node that exists in prev by identifier, both versions
are text nodes with identical formatting flags, the prev text is
non-empty, the next text length differs from the prev text length by
exactly one, both snapshots carry a selection with the same anchor node,
and the next anchor offset is the prev anchor offset plus one,
getMergeAction returns MERGE. -/
theorem c1_contiguous_keystroke_merges
    (withoutHistory : List Nat) (prev nextViewModel : ViewModel)
    (n p : Node) (sel psel : Selection)
    (hexempt : nextViewModel.id ∉ withoutHistory)
    (hnodes : nextViewModel.dirtyNodes = [n])
    (hfound : prev.nodeMap.lookup n.key = some p)
    (hpt : p.isText = true) (hnt : n.isText = true)
    (hflags : p.flags = n.flags)
    (hne : p.text ≠ "")
    (hlen : (n.text.length : Int) = (p.text.length : Int) + 1 ∨
            (n.text.length : Int) = (p.text.length : Int) - 1)
    (hsel : nextViewModel.selection = some sel)
    (hpsel : prev.selection = some psel)
    (hkey : sel.anchorKey = psel.anchorKey)
    (hoff : sel.anchorOffset = psel.anchorOffset + 1) :
    (getMergeAction withoutHistory (some prev) nextViewModel).1 = .MERGE := by
  rcases hlen with h1 | h1 <;>
  · first
    | (have hd : (n.text.length : Int) - (p.text.length : Int) = 1 := by omega)
    | (have hd : (n.text.length : Int) - (p.text.length : Int) = -1 := by omega)
    simp [getMergeAction, hexempt, mergeDecision, ViewModel.hasDirtyNodes,
      ViewModel.getDirtyNodes, hnodes, hfound, hpt, hnt, hflags, hne, hd,
      hsel, hpsel, hkey, hoff]

/-- C3 is false as stated: with prev absent the decision is NO_MERGE, not
DISCARD, and applyChange mutates current. -/
theorem c3_counterexample :
    vmEmpty.isDirty = false ∧ vmEmpty.dirtyNodes = [] ∧
    (getMergeAction [] none vmEmpty).1 ≠ MergeAction.DISCARD ∧
    (applyChange [] initialHistoryState vmEmpty).1 ≠ initialHistoryState := by
  decide

/-- C3 amended: when prev is PRESENT, next is not tagged history-exempt,
next is not marked dirty and next has no dirty nodes, the merge decision
is DISCARD and applyChange leaves the whole state (current, undo stack,
redo stack) and the exemption set unchanged. -/
theorem c3_discard_is_frame (withoutHistory : List Nat) (s : HistoryState)
    (c viewModel : ViewModel)
    (hcur : s.current = some c)
    (hexempt : viewModel.id ∉ withoutHistory)
    (hdirty : viewModel.isDirty = false)
    (hnodes : viewModel.dirtyNodes = []) :
    (getMergeAction withoutHistory s.current viewModel).1 = .DISCARD ∧
    applyChange withoutHistory s viewModel = (s, withoutHistory) := by
  have hdec : mergeDecision s.current viewModel = .DISCARD := by
    simp [hcur, mergeDecision, ViewModel.hasDirtyNodes, hnodes]
  have hga : getMergeAction withoutHistory s.current viewModel =
      (.DISCARD, withoutHistory) := by
    simp [getMergeAction, hexempt, hdec]
  refine ⟨by simp [hga], ?_⟩
  by_cases hid : s.current.map ViewModel.id = some viewModel.id
  · simp [applyChange, hid]
  · simp [applyChange, hid, hdirty, getMergeAction, hexempt, hdec]

/-- C4: whenever applyChange actually consults the merge decision (the
snapshot is not identical to current and not marked dirty) and the
decision is NO_MERGE, the resulting redo stack is empty, the previous
current snapshot (when present) has been pushed onto the undo stack, and
the snapshot becomes current. -/
theorem c4_no_merge_clears_redo (withoutHistory : List Nat) (s : HistoryState)
    (viewModel : ViewModel)
    (hid : s.current.map ViewModel.id ≠ some viewModel.id)
    (hdirty : viewModel.isDirty = false)
    (hmerge : (getMergeAction withoutHistory s.current viewModel).1 = .NO_MERGE) :
    (applyChange withoutHistory s viewModel).1.redoStack = [] ∧
    (applyChange withoutHistory s viewModel).1.undoStack =
      (match s.current with
       | some c => c :: s.undoStack
       | none => s.undoStack) ∧
    (applyChange withoutHistory s viewModel).1.current = some viewModel := by
  simp [applyChange, hid, hdirty, hmerge]

/-- C5 is false as stated: the exemption check precedes the prev-null
check, so a tagged snapshot yields MERGE even when prev is null. -/
theorem c5_counterexample :
    vmExempt.isDirty = false ∧
    (getMergeAction [5] none vmExempt).1 ≠ MergeAction.NO_MERGE := by
  decide

/-- C5 amended: when next is not marked dirty, prev is null and next is
not tagged history-exempt, getMergeAction returns NO_MERGE. -/
theorem c5_prev_null_no_merge (withoutHistory : List Nat)
    (nextViewModel : ViewModel)
    (hdirty : nextViewModel.isDirty = false)
    (hexempt : nextViewModel.id ∉ withoutHistory) :
    (getMergeAction withoutHistory none nextViewModel).1 = .NO_MERGE := by
  simp [getMergeAction, hexempt, mergeDecision]

/-- C6: when prev is present, next is not tagged history-exempt, next has
exactly one dirty node matching a text node of prev with identical flags,
and the text of the previous version is empty, getMergeAction returns
NO_MERGE, with no condition on selections or text lengths. -/
theorem c6_empty_prev_text_no_merge
    (withoutHistory : List Nat) (prev nextViewModel : ViewModel) (n p : Node)
    (hexempt : nextViewModel.id ∉ withoutHistory)
    (hnodes : nextViewModel.dirtyNodes = [n])
    (hfound : prev.nodeMap.lookup n.key = some p)
    (hpt : p.isText = true) (hnt : n.isText = true)
    (hflags : p.flags = n.flags)
    (hempty : p.text = "") :
    (getMergeAction withoutHistory (some prev) nextViewModel).1 = .NO_MERGE := by
  simp [getMergeAction, hexempt, mergeDecision, ViewModel.hasDirtyNodes,
    ViewModel.getDirtyNodes, hnodes, hfound, hpt, hnt, hflags, hempty]

/-- C7: undo on an empty undo stack and redo on an empty redo stack leave
the state unchanged and hand nothing to the editor; both operations are
total functions, defined on every state. -/
theorem c7_empty_stack_noop (s : HistoryState) :
    (s.undoStack = [] → undo s = (s, none)) ∧
    (s.redoStack = [] → redo s = (s, none)) := by
  constructor
  · intro h
    simp [undo, h]
  · intro h
    simp [redo, h]

/-- C7 witness at the initial state. -/
theorem c7_witness :
    undo initialHistoryState = (initialHistoryState, none) ∧
    redo initialHistoryState = (initialHistoryState, none) :=
  ⟨(c7_empty_stack_noop initialHistoryState).1 rfl,
   (c7_empty_stack_noop initialHistoryState).2 rfl⟩

/-- C10: when current is absent and the undo stack is non-empty, undo
pops exactly one entry, installs it (marked dirty) as current, hands it
to the editor, and leaves the redo stack untouched. -/
theorem c10_undo_without_current (s : HistoryState) (u : ViewModel)
    (rest : List ViewModel) (hcur : s.current = none)
    (hstack : s.undoStack = u :: rest) :
    undo s = ({ current := some u.markDirty, undoStack := rest,
                redoStack := s.redoStack }, some u.markDirty) := by
  simp [undo, hcur, hstack]

/-- C2: from the empty history state, recording A then B (both not
dirty, distinct objects, the second classified NO_MERGE — the first is
always NO_MERGE since prev is absent) gives undoStack = [A] and
current = B; undo then gives current = A (marked dirty in place),
empty undo stack and redoStack = [B]; redo then gives current = B
(marked dirty in place), empty redo stack and undoStack = [A] again
(the same object A, still carrying its dirty mark). -/
theorem c2_round_trip (A B : ViewModel)
    (hA : A.isDirty = false) (hB : B.isDirty = false)
    (hAB : A.id ≠ B.id)
    (hM : mergeDecision (some A) B = .NO_MERGE) :
    (applyChange [] (applyChange [] initialHistoryState A).1 B).1 =
      { current := some B, undoStack := [A], redoStack := [] } ∧
    (undo (applyChange [] (applyChange [] initialHistoryState A).1 B).1).1 =
      { current := some A.markDirty, undoStack := [], redoStack := [B] } ∧
    (redo (undo (applyChange [] (applyChange [] initialHistoryState A).1 B).1).1).1 =
      { current := some B.markDirty, undoStack := [A.markDirty],
        redoStack := [] } := by
  have h1 : (applyChange [] initialHistoryState A).1 =
      { current := some A, undoStack := [], redoStack := [] } := by
    simp [applyChange, initialHistoryState, hA, getMergeAction, mergeDecision]
  have h2 : (applyChange [] (applyChange [] initialHistoryState A).1 B).1 =
      { current := some B, undoStack := [A], redoStack := [] } := by
    rw [h1]
    simp [applyChange, hB, getMergeAction, hM, hAB]
  have h3 : (undo (applyChange [] (applyChange [] initialHistoryState A).1 B).1).1 =
      { current := some A.markDirty, undoStack := [], redoStack := [B] } := by
    rw [h2]
    simp [undo]
  refine ⟨h2, h3, ?_⟩
  rw [h3]
  simp [redo]

/-- C8: undo when current is present and the undo stack is non-empty.
If the stack holds more than one entry and current has no dirty nodes,
the top entry is popped and pushed onto redo (current itself is dropped);
otherwise current is pushed onto redo. The new top of the undo stack is
then popped, marked dirty, installed as current and handed to the
editor. -/
theorem c8_undo_with_current (s : HistoryState) (c u : ViewModel)
    (rest : List ViewModel) (hcur : s.current = some c)
    (hstack : s.undoStack = u :: rest) :
    (∀ u2 rest2, rest = u2 :: rest2 → c.hasDirtyNodes = false →
      undo s = ({ current := some u2.markDirty, undoStack := rest2,
                  redoStack := u :: s.redoStack }, some u2.markDirty)) ∧
    ((rest = [] ∨ c.hasDirtyNodes = true) →
      undo s = ({ current := some u.markDirty, undoStack := rest,
                  redoStack := c :: s.redoStack }, some u.markDirty)) := by
  constructor
  · intro u2 rest2 hrest hnd
    subst hrest
    simp [undo, hcur, hstack, hnd]
  · rintro (hrest | hnd)
    · subst hrest
      simp [undo, hcur, hstack]
    · simp [undo, hcur, hstack, hnd]

/-- C1 witness: the spec example — prev text "ab", next text "abc", same
node, matching flags, anchor offset 2 then 3 — is classified MERGE. -/
theorem c1_witness :
    (getMergeAction [] (some prevC1) nextC1).1 = .MERGE :=
  c1_contiguous_keystroke_merges [] prevC1 nextC1 nodeNextC1 nodePrevC1
    { anchorKey := 10, anchorOffset := 3 } { anchorKey := 10, anchorOffset := 2 }
    (by decide) (by decide) (by decide) (by decide) (by decide) (by decide)
    (by decide) (by decide) (by decide) (by decide) (by decide) (by decide)

/-- C2 witness: the round trip at two concrete snapshots. -/
theorem c2_witness :
    (applyChange [] (applyChange [] initialHistoryState vmOne).1 vmTwo).1 =
      { current := some vmTwo, undoStack := [vmOne], redoStack := [] } ∧
    (undo (applyChange [] (applyChange [] initialHistoryState vmOne).1
        vmTwo).1).1 =
      { current := some vmOne.markDirty, undoStack := [],
        redoStack := [vmTwo] } ∧
    (redo (undo (applyChange [] (applyChange [] initialHistoryState vmOne).1
        vmTwo).1).1).1 =
      { current := some vmTwo.markDirty, undoStack := [vmOne.markDirty],
        redoStack := [] } :=
  c2_round_trip vmOne vmTwo (by decide) (by decide) (by decide) (by decide)

/-- C3 witness: a no-dirty-node snapshot recorded over a present current
is discarded and the state survives untouched. -/
theorem c3_witness :
    (getMergeAction [] stateC3.current vmEmpty).1 = .DISCARD ∧
    applyChange [] stateC3 vmEmpty = (stateC3, []) :=
  c3_discard_is_frame [] stateC3 vmOne vmEmpty rfl (by decide) (by decide)
    (by decide)

/-- C4 witness: a NO_MERGE commit over a non-empty redo stack empties it
and pushes the previous current snapshot. -/
theorem c4_witness :
    (applyChange [] stateC4 vmTwo).1.redoStack = [] ∧
    (applyChange [] stateC4 vmTwo).1.undoStack =
      (match stateC4.current with
       | some c => c :: stateC4.undoStack
       | none => stateC4.undoStack) ∧
    (applyChange [] stateC4 vmTwo).1.current = some vmTwo :=
  c4_no_merge_clears_redo [] stateC4 vmTwo (by decide) (by decide) (by decide)

/-- C5 witness: with no exemption pending and no previous snapshot the
decision is NO_MERGE. -/
theorem c5_witness :
    (getMergeAction [] none vmOne).1 = .NO_MERGE :=
  c5_prev_null_no_merge [] vmOne (by decide) (by decide)

/-- C6 witness: empty previous text forces NO_MERGE. -/
theorem c6_witness :
    (getMergeAction [] (some prevC6) nextC6).1 = .NO_MERGE :=
  c6_empty_prev_text_no_merge [] prevC6 nextC6 nodeNextC6 nodePrevC6
    (by decide) (by decide) (by decide) (by decide) (by decide) (by decide)
    (by decide)

/-- C8 witness: both undo branches at concrete states — a single-entry
undo stack pushes current to redo; a two-entry stack with a clean current
skips it and pushes the popped top instead. -/
theorem c8_witness :
    undo stateC8 =
      ({ current := some vmTwo.markDirty, undoStack := [],
         redoStack := vmOne :: stateC8.redoStack }, some vmTwo.markDirty) ∧
    undo stateC8b =
      ({ current := some vmEmpty.markDirty, undoStack := [],
         redoStack := vmTwo :: stateC8b.redoStack }, some vmEmpty.markDirty) :=
  ⟨(c8_undo_with_current stateC8 vmOne vmTwo [] rfl rfl).2 (Or.inl rfl),
   (c8_undo_with_current stateC8b vmOne vmTwo [vmEmpty] rfl rfl).1 vmEmpty []
     rfl (by decide)⟩

/-- C10 witness: undo with no current pops one entry and leaves redo
alone. -/
theorem c10_witness :
    undo stateC10 =
      ({ current := some vmOne.markDirty, undoStack := [],
         redoStack := stateC10.redoStack }, some vmOne.markDirty) :=
  c10_undo_without_current stateC10 vmOne [] rfl rfl

/-- C9 is false as stated: recording one snapshot and then restoring
stacks that contain that same snapshot via setStacks reaches a state
whose current snapshot sits in the undo stack. -/
theorem c9_counterexample :
    ¬ (∀ s : HistoryState, Reachable s → ∀ c : ViewModel,
        s.current = some c →
        c.id ∉ s.undoStack.map ViewModel.id ∧
        c.id ∉ s.redoStack.map ViewModel.id) := by
  intro h
  have hr : Reachable
      (setHistoryState (applyChange [] initialHistoryState vmOne).1 [vmOne] []) :=
    Reachable.setStacks [vmOne] [] (Reachable.record [] vmOne Reachable.init)
  have h2 := h _ hr vmOne (by decide)
  exact h2.1 (by decide)

/-- C9 amended: in every state reachable from the initial history state
through recordUpdate, undo and redo, where each recorded snapshot is
fresh (its identity does not already occur in current or either stack),
the current snapshot is present (by identity) in neither stack. -/
theorem c9_current_not_in_stacks {s : HistoryState} (h : ReachableFresh s)
    (c : ViewModel) (hc : s.current = some c) :
    c.id ∉ s.undoStack.map ViewModel.id ∧
    c.id ∉ s.redoStack.map ViewModel.id := by
  have hn := reachableFresh_nodup h
  rw [stateIds_some hc] at hn
  have h1 := (List.nodup_cons.mp hn).1
  simp only [List.mem_append] at h1
  push_neg at h1
  exact h1

/-- C9 witness: after freshly recording two snapshots the current one is
in neither stack. -/
theorem c9_witness :
    vmTwo.id ∉ (applyChange [] (applyChange [] initialHistoryState vmOne).1
      vmTwo).1.undoStack.map ViewModel.id ∧
    vmTwo.id ∉ (applyChange [] (applyChange [] initialHistoryState vmOne).1
      vmTwo).1.redoStack.map ViewModel.id :=
  c9_current_not_in_stacks
    (ReachableFresh.record [] vmTwo
      (ReachableFresh.record [] vmOne ReachableFresh.init (by decide))
      (by decide))
    vmTwo (by decide)

end OutlineHistory
